import Mathlib

/-!
Verification of the preprocessing pipeline of `Financial_Analytics_LoanDefault`
(`src/preprocess.py` and `src/data_loader.py`).

The development shallowly embeds the column-name and column-value
transformations of `preprocess.py`:

* `_to_snake` (column-name canonicalization) is embedded over `List Char`
  (`toSnake`) and wrapped at `String` level (`to_snake`).  Python's
  `str.strip` / `str.lower` are modelled on the ASCII range, which is the
  range the regexes `[^0-9a-zA-Z]+` and `_+` discriminate on.
* column values are modelled with `ℚ` for pandas numerics, `String` for
  object cells, and `Option` for missing values (`NaN`).
* pandas library collaborators (`pd.to_numeric`, `.map`, `.dropna`,
  `.astype(int)`, `Series.nunique`) are embedded by their documented
  behaviour on the dtypes that actually reach them in this code:
  `to_numeric(errors="ignore")` parses the whole column or returns its
  input unchanged, `to_numeric(errors="coerce")` turns unparseable cells
  into missing values, `astype(int)` on floats truncates toward zero, and
  `nunique` counts distinct non-null values.  String parsing is modelled
  for optionally signed decimal literals (the forms exercised here);
  exponent forms are omitted.
-/

namespace LoanDefault

/-! ## Character-level model of `_to_snake` -/

/-- Characters matched by the regex class `[0-9a-zA-Z]` of `_to_snake`. -/
def isAl (c : Char) : Bool :=
  (48 ≤ c.toNat && c.toNat ≤ 57) || (97 ≤ c.toNat && c.toNat ≤ 122) ||
    (65 ≤ c.toNat && c.toNat ≤ 90)

/-- Lowercase letters and digits: the alphanumeric characters a canonical
name can contain. -/
def isLowerAl (c : Char) : Bool :=
  (48 ≤ c.toNat && c.toNat ≤ 57) || (97 ≤ c.toNat && c.toNat ≤ 122)

/-- Whitespace stripped by Python's `str.strip()` (ASCII portion). -/
def isWs (c : Char) : Bool :=
  c.toNat = 32 || c.toNat = 9 || c.toNat = 10 || c.toNat = 13 ||
    c.toNat = 11 || c.toNat = 12

/-- ASCII case folding performed by Python's `str.lower()`:
uppercase letters move down by 32, all other characters are unchanged. -/
def pyLowerChar (c : Char) : Char :=
  if 65 ≤ c.toNat ∧ c.toNat ≤ 90 then Char.ofNat (c.toNat + 32) else c

/-- Replacement step of the regex `[^0-9a-zA-Z]+` at a single character:
alphanumerics survive, everything else becomes an underscore.  Together
with `collapseUnd` this realizes substitution of each maximal
non-alphanumeric run by one underscore. -/
def undChar (c : Char) : Char :=
  if isAl c then c else '_'

/-- Substitution `re.sub(r"_+", "_", ·)`: each maximal run of underscores
is collapsed to a single underscore. -/
def collapseUnd : List Char → List Char
  | [] => []
  | [c] => [c]
  | c :: d :: cs =>
    if c = '_' ∧ d = '_' then collapseUnd (d :: cs)
    else c :: collapseUnd (d :: cs)

/-- Python's `str.strip()`: drop leading and trailing whitespace. -/
def pyStrip (l : List Char) : List Char :=
  ((l.dropWhile isWs).reverse.dropWhile isWs).reverse

/-- Python's `str.strip("_")`: drop leading and trailing underscores. -/
def stripUnd (l : List Char) : List Char :=
  ((l.dropWhile (fun c => c = '_')).reverse.dropWhile (fun c => c = '_')).reverse

/-- The body of `_to_snake` over character lists:
`s = re.sub(r"[^0-9a-zA-Z]+", "_", name.strip().lower())` followed by
`re.sub(r"_+", "_", s).strip("_")`.  The first regex substitution is the
composition of the per-character map `undChar` with one underscore-run
collapse; the second substitution is a further `collapseUnd`. -/
def toSnake (l : List Char) : List Char :=
  stripUnd (collapseUnd (collapseUnd (((pyStrip l).map pyLowerChar).map undChar)))

/-- The function `_to_snake` of `preprocess.py` at `String` level. -/
def to_snake (name : String) : String :=
  String.mk (toSnake name.data)

example : to_snake " Cust_ID " = "cust_id" := by decide
example : to_snake "Defaulted?" = "defaulted" := by decide
example : to_snake "__Bank  Balance!!" = "bank_balance" := by decide
example : to_snake "" = "" := by decide

/-! ## Invariants of canonical names -/

/-- Characters a canonical (snake-cased) name may contain: lowercase
alphanumerics and underscores. -/
def goodChar (c : Char) : Bool :=
  isLowerAl c || c = '_'

/-- Adjacency constraint of canonical names: no two consecutive underscores. -/
def UndSep (a b : Char) : Prop :=
  a = '_' → b ≠ '_'

/-- A string (as a character list) already in the image of `toSnake`:
only good characters, no doubled underscore, and no underscore at either end. -/
def Canonical (l : List Char) : Prop :=
  (∀ c ∈ l, goodChar c = true) ∧ l.Chain' UndSep ∧
    (∀ a, l.head? = some a → a ≠ '_') ∧ (∀ a, l.getLast? = some a → a ≠ '_')

theorem toNat_ofNat_lt (n : Nat) (h : n < 55296) : (Char.ofNat n).toNat = n := by
  have hv : n.isValidChar := Or.inl (by exact_mod_cast h)
  rw [Char.ofNat, dif_pos hv]
  simp [Char.ofNatAux, Char.toNat, UInt32.toNat]

theorem goodChar_undChar_pyLowerChar (c : Char) :
    goodChar (undChar (pyLowerChar c)) = true := by
  by_cases h : 65 ≤ c.toNat ∧ c.toNat ≤ 90
  · have ht : (pyLowerChar c).toNat = c.toNat + 32 := by
      rw [pyLowerChar, if_pos h]
      exact toNat_ofNat_lt _ (by omega)
    have hal : isAl (pyLowerChar c) = true := by
      simp only [isAl, ht, Bool.or_eq_true, Bool.and_eq_true, decide_eq_true_eq]
      omega
    rw [undChar, if_pos hal, goodChar]
    simp only [Bool.or_eq_true]
    left
    simp only [isLowerAl, ht, Bool.or_eq_true, Bool.and_eq_true, decide_eq_true_eq]
    omega
  · rw [pyLowerChar, if_neg h]
    by_cases hal : isAl c = true
    · rw [undChar, if_pos hal, goodChar]
      simp only [Bool.or_eq_true]
      left
      simp only [isAl, Bool.or_eq_true, Bool.and_eq_true, decide_eq_true_eq] at hal
      simp only [isLowerAl, Bool.or_eq_true, Bool.and_eq_true, decide_eq_true_eq]
      omega
    · rw [undChar, if_neg hal]
      simp [goodChar]

theorem goodChar_not_upper {c : Char} (h : goodChar c = true) :
    ¬ (65 ≤ c.toNat ∧ c.toNat ≤ 90) := by
  simp only [goodChar, isLowerAl, Bool.or_eq_true, Bool.and_eq_true,
    decide_eq_true_eq] at h
  rcases h with h | h
  · omega
  · subst h; decide

theorem goodChar_not_ws {c : Char} (h : goodChar c = true) : isWs c = false := by
  simp only [goodChar, isLowerAl, Bool.or_eq_true, Bool.and_eq_true,
    decide_eq_true_eq] at h
  simp only [isWs, Bool.or_eq_false_iff, decide_eq_false_iff_not]
  rcases h with h | h
  · omega
  · subst h; decide

theorem pyLowerChar_id_of_good {c : Char} (h : goodChar c = true) :
    pyLowerChar c = c := by
  rw [pyLowerChar, if_neg (goodChar_not_upper h)]

theorem undChar_id_of_good {c : Char} (h : goodChar c = true) :
    undChar c = c := by
  simp only [goodChar, Bool.or_eq_true, decide_eq_true_eq] at h
  rcases h with h | h
  · rw [undChar, if_pos]
    simp only [isAl, isLowerAl, Bool.or_eq_true, Bool.and_eq_true,
      decide_eq_true_eq] at h ⊢
    omega
  · subst h; decide

theorem collapseUnd_head (d : Char) (cs : List Char) (hd : d ≠ '_') :
    (collapseUnd (d :: cs)).head? = some d := by
  cases cs with
  | nil => rfl
  | cons e cs' =>
    rw [collapseUnd, if_neg (fun hc => hd hc.1)]
    rfl

theorem collapseUnd_chain (l : List Char) : (collapseUnd l).Chain' UndSep := by
  induction l using collapseUnd.induct with
  | case1 => simp [collapseUnd]
  | case2 c => simp [collapseUnd]
  | case3 c d cs h ih =>
    rw [collapseUnd, if_pos h]
    exact ih
  | case4 c d cs h ih =>
    rw [collapseUnd, if_neg h]
    rw [List.chain'_cons']
    refine ⟨?_, ih⟩
    intro y hy
    by_cases hc : c = '_'
    · have hdne : d ≠ '_' := fun hdu => h ⟨hc, hdu⟩
      rw [collapseUnd_head d cs hdne] at hy
      intro _
      cases hy
      exact hdne
    · intro hcu
      exact absurd hcu hc

theorem collapseUnd_id {l : List Char} (h : l.Chain' UndSep) :
    collapseUnd l = l := by
  induction l using collapseUnd.induct with
  | case1 => rfl
  | case2 c => rfl
  | case3 c d cs hcd ih =>
    rw [List.chain'_cons] at h
    exact absurd hcd.2 (h.1 hcd.1)
  | case4 c d cs hcd ih =>
    rw [List.chain'_cons] at h
    rw [collapseUnd, if_neg hcd, ih h.2]

theorem collapseUnd_sublist (l : List Char) : List.Sublist (collapseUnd l) l := by
  induction l using collapseUnd.induct with
  | case1 => simp [collapseUnd]
  | case2 c => simp [collapseUnd]
  | case3 c d cs h ih =>
    rw [collapseUnd, if_pos h]
    exact ih.trans (List.sublist_cons_self _ _)
  | case4 c d cs h ih =>
    rw [collapseUnd, if_neg h]
    exact ih.cons₂ c

theorem head_dropWhile_not {p : Char → Bool} {l : List Char} {a : Char}
    (h : (l.dropWhile p).head? = some a) : p a = false := by
  induction l with
  | nil => simp [List.dropWhile] at h
  | cons b bs ih =>
    rw [List.dropWhile_cons] at h
    by_cases hb : p b
    · rw [if_pos hb] at h
      exact ih h
    · rw [if_neg hb] at h
      cases h
      exact Bool.of_not_eq_true hb

theorem getLast_dropWhile {p : Char → Bool} {l : List Char}
    (h : l.dropWhile p ≠ []) : (l.dropWhile p).getLast? = l.getLast? := by
  induction l with
  | nil => simp [List.dropWhile] at h
  | cons b bs ih =>
    rw [List.dropWhile_cons]
    by_cases hb : p b
    · rw [List.dropWhile_cons, if_pos hb] at h
      have hbs : bs ≠ [] := by
        intro hnil
        exact h (by simp [hnil, List.dropWhile])
      rw [if_pos hb, ih h]
      cases bs with
      | nil => exact absurd rfl hbs
      | cons e es => rw [List.getLast?_cons_cons]
    · rw [if_neg hb]

theorem stripUnd_within (l : List Char) : stripUnd l <:+: l := by
  unfold stripUnd
  have h1 : (l.dropWhile (fun c => c = '_')).reverse.dropWhile (fun c => c = '_') <:+
      (l.dropWhile (fun c => c = '_')).reverse := List.dropWhile_suffix _
  have h2 : ((l.dropWhile (fun c => c = '_')).reverse.dropWhile (fun c => c = '_')).reverse <+:
      l.dropWhile (fun c => c = '_') := by
    rw [← List.reverse_reverse (l.dropWhile (fun c => c = '_'))]
    exact List.reverse_prefix.mpr (by simpa using h1)
  exact h2.isInfix.trans (List.dropWhile_suffix _).isInfix

theorem stripUnd_sublist (l : List Char) : List.Sublist (stripUnd l) l :=
  ((stripUnd_within l).sublist)

theorem stripUnd_head {l : List Char} {a : Char}
    (h : (stripUnd l).head? = some a) : a ≠ '_' := by
  unfold stripUnd at h
  rw [List.head?_reverse] at h
  have hne : (l.dropWhile (fun c => c = '_')).reverse.dropWhile (fun c => c = '_') ≠ [] := by
    intro hnil
    rw [hnil] at h
    simp at h
  rw [getLast_dropWhile hne, List.getLast?_reverse] at h
  have := head_dropWhile_not h
  simpa using this

theorem stripUnd_last {l : List Char} {a : Char}
    (h : (stripUnd l).getLast? = some a) : a ≠ '_' := by
  unfold stripUnd at h
  rw [List.getLast?_reverse] at h
  have := head_dropWhile_not h
  simpa using this

theorem head?_mem {l : List Char} {a : Char} (h : l.head? = some a) : a ∈ l := by
  cases l with
  | nil => simp at h
  | cons b bs =>
    cases h
    exact List.mem_cons_self _ _

theorem getLast?_mem {l : List Char} {a : Char} (h : l.getLast? = some a) : a ∈ l := by
  rw [← List.head?_reverse] at h
  exact (List.mem_reverse).mp (head?_mem h)

theorem dropWhile_id {p : Char → Bool} {l : List Char}
    (h : ∀ a, l.head? = some a → p a = false) : l.dropWhile p = l := by
  cases l with
  | nil => rfl
  | cons a as =>
    rw [List.dropWhile_cons, if_neg]
    rw [h a rfl]
    simp

theorem map_id_of {α : Type} {f : α → α} {l : List α}
    (h : ∀ a ∈ l, f a = a) : l.map f = l := by
  induction l with
  | nil => rfl
  | cons a as ih =>
    rw [List.map_cons, h a (List.mem_cons_self _ _),
      ih (fun b hb => h b (List.mem_cons_of_mem _ hb))]

theorem pyStrip_id {l : List Char} (h : ∀ c ∈ l, goodChar c = true) :
    pyStrip l = l := by
  have h1 : l.dropWhile isWs = l :=
    dropWhile_id (fun a ha => goodChar_not_ws (h a (head?_mem ha)))
  have h2 : l.reverse.dropWhile isWs = l.reverse :=
    dropWhile_id (fun a ha => by
      rw [List.head?_reverse] at ha
      exact goodChar_not_ws (h a (getLast?_mem ha)))
  rw [pyStrip, h1, h2, List.reverse_reverse]

theorem stripUnd_id {l : List Char}
    (hh : ∀ a, l.head? = some a → a ≠ '_') (hl : ∀ a, l.getLast? = some a → a ≠ '_') :
    stripUnd l = l := by
  have h1 : l.dropWhile (fun c => c = '_') = l :=
    dropWhile_id (fun a ha => by simpa using hh a ha)
  have h2 : l.reverse.dropWhile (fun c => c = '_') = l.reverse :=
    dropWhile_id (fun a ha => by
      rw [List.head?_reverse] at ha
      simpa using hl a ha)
  rw [stripUnd, h1, h2, List.reverse_reverse]

/-- Every output of `toSnake` satisfies the canonical-name invariant:
good characters only, no doubled underscore, no underscore at either end. -/
theorem toSnake_canonical (l : List Char) : Canonical (toSnake l) := by
  refine ⟨?_, ?_, ?_, ?_⟩
  · intro c hc
    have hc1 : c ∈ collapseUnd (collapseUnd (((pyStrip l).map pyLowerChar).map undChar)) :=
      (stripUnd_sublist _).subset hc
    have hc2 : c ∈ ((pyStrip l).map pyLowerChar).map undChar :=
      (collapseUnd_sublist _).subset ((collapseUnd_sublist _).subset hc1)
    rw [List.map_map] at hc2
    obtain ⟨a, _, rfl⟩ := List.mem_map.mp hc2
    exact goodChar_undChar_pyLowerChar a
  · exact List.Chain'.infix (collapseUnd_chain _) (stripUnd_within _)
  · exact fun a ha => stripUnd_head ha
  · exact fun a ha => stripUnd_last ha

/-- `toSnake` is the identity on canonical names. -/
theorem toSnake_id_of_canonical {l : List Char} (h : Canonical l) : toSnake l = l := by
  obtain ⟨hg, hchain, hh, hl⟩ := h
  unfold toSnake
  rw [pyStrip_id hg,
    map_id_of (fun a ha => pyLowerChar_id_of_good (hg a ha)),
    map_id_of (fun a ha => undChar_id_of_good (hg a ha)),
    collapseUnd_id hchain, collapseUnd_id hchain,
    stripUnd_id hh hl]

theorem toSnake_idem (l : List Char) : toSnake (toSnake l) = toSnake l :=
  toSnake_id_of_canonical (toSnake_canonical l)

/-- Every character of a canonicalized name is a lowercase alphanumeric or
an underscore; in particular no canonicalized name contains an uppercase
letter. -/
theorem to_snake_good (s : String) : ∀ c ∈ (to_snake s).data, goodChar c = true :=
  (toSnake_canonical s.data).1

/-- No input canonicalizes to the fixed uppercase label `DEFAULT`. -/
theorem to_snake_ne_DEFAULT (s : String) : to_snake s ≠ "DEFAULT" := by
  intro h
  have hD : 'D' ∈ (to_snake s).data := by
    rw [h]
    decide
  have := to_snake_good s 'D' hD
  simp [goodChar, isLowerAl] at this

/-! ## Column values -/

/-- A cell of a pandas object column as this pipeline observes it:
a number or a piece of text. -/
inductive PyVal where
  | num (q : ℚ)
  | str (s : String)
deriving DecidableEq

/-- Numeric value of a run of ASCII digits, most significant first. -/
def digitsVal (ds : List Char) : ℕ :=
  ds.foldl (fun n c => 10 * n + (c.toNat - 48)) 0

/-- Unsigned decimal literal: digits with an optional fractional part.
Parsing of a numeric token by `pd.to_numeric`, modelled for the decimal
forms this dataset carries (exponent forms omitted). -/
def parseDecimal (cs : List Char) : Option ℚ :=
  let intPart := cs.takeWhile Char.isDigit
  let rest := cs.dropWhile Char.isDigit
  match rest with
  | [] => if intPart.isEmpty then none else some (Rat.divInt (digitsVal intPart) 1)
  | '.' :: frac =>
    if frac.all Char.isDigit && !(intPart.isEmpty && frac.isEmpty) then
      some (Rat.divInt (digitsVal intPart * 10 ^ frac.length + digitsVal frac)
        (10 ^ frac.length))
    else none
  | _ => none

/-- Numeric parsing of one cell, with an optional sign. -/
def parseNum (s : String) : Option ℚ :=
  match s.data with
  | '-' :: r => (parseDecimal r).map (fun q => -q)
  | '+' :: r => parseDecimal r
  | r => parseDecimal r

example : parseNum "1200.50" = some (Rat.divInt 2401 2) := by decide
example : parseNum "950" = some 950 := by decide
example : parseNum "N/A" = none := by decide
example : parseNum "" = none := by decide
example : parseNum "-2.5" = some (Rat.divInt (-5) 2) := by decide

/-- Truncation toward zero: the cast performed by `astype(int)` on a
float column (C-style cast). -/
def truncQ (q : ℚ) : ℤ :=
  q.num.tdiv q.den

example : truncQ (Rat.divInt 1 2) = 0 := by decide
example : truncQ (Rat.divInt 19 10) = 1 := by decide
example : truncQ (Rat.divInt (-1) 2) = 0 := by decide

/-! ## `basic_type_fixes` -/

/-- The configured currency-like columns of `basic_type_fixes`. -/
def finance_cols : List String :=
  ["bank_balance", "annual_salary", "loan_amount"]

/-- Comma/currency-symbol stripping of `basic_type_fixes`:
`.str.replace(",", "").str.replace("$", "")`. -/
def stripCurrency (s : String) : String :=
  String.mk ((s.data.filter (fun c => c ≠ ',')).filter (fun c => c ≠ '$'))

/-- All-or-nothing column parse of `pd.to_numeric(·, errors="ignore")`:
the numeric column when every cell parses, otherwise `none` (the caller
keeps its input unchanged). -/
def parseAll : List String → Option (List ℚ)
  | [] => some []
  | s :: ss =>
    match parseNum s, parseAll ss with
    | some q, some qs => some (q :: qs)
    | _, _ => none

/-- Action of `basic_type_fixes` on one object (textual) column named
`name` holding `vals`: for a configured finance column, commas and `$`
are stripped, then `pd.to_numeric(·, errors="ignore")` either converts
the whole column or leaves the (stripped) column as text.  Other object
columns pass through unchanged. -/
def basic_type_fixes_col (name : String) (vals : List String) : List PyVal :=
  if name ∈ finance_cols then
    match parseAll (vals.map stripCurrency) with
    | some qs => qs.map PyVal.num
    | none => (vals.map stripCurrency).map PyVal.str
  else vals.map PyVal.str

/-! ## `resolve_target` -/

/-- The truthy/falsey lexicon `mapping` of `resolve_target`. -/
def mapping (s : String) : Option ℤ :=
  if s = "yes" ∨ s = "y" ∨ s = "true" ∨ s = "t" ∨ s = "1" then some 1
  else if s = "no" ∨ s = "n" ∨ s = "false" ∨ s = "f" ∨ s = "0" then some 0
  else none

/-- Cell normalization `.astype(str).str.strip().str.lower()` applied
before the lexicon lookup. -/
def normCell (s : String) : String :=
  String.mk ((pyStrip s.data).map pyLowerChar)

/-- Error message of the 0/1 domain check of `resolve_target`. -/
def domainErr : String :=
  "Found target values outside \x7b0,1\x7d after coercion."

/-- Value coercion of `resolve_target` on an object (textual) target
column: map each normalized cell through the lexicon (unmapped cells
become missing); `pd.to_numeric(errors="coerce")` then runs on this
already-mapped column, where it is numerically the identity; rows still
missing are dropped; the rest is cast to integer and checked to lie in
\x7b0, 1\x7d. -/
def coerceTargetObj (vals : List String) : Except String (List ℤ) :=
  let mapped : List (Option ℤ) := vals.map (fun v => mapping (normCell v))
  let kept : List ℤ := mapped.filterMap id
  if kept.all (fun v => v == 0 || v == 1) then Except.ok kept
  else Except.error domainErr

/-- Value coercion of `resolve_target` on a numeric (non-bool,
non-object) target column: the lexicon step does not apply,
`pd.to_numeric(errors="coerce")` is the identity on numerics, missing
entries are dropped by `dropna`, and `astype(int)` truncates toward
zero before the 0/1 domain check. -/
def coerceTargetNum (vals : List (Option ℚ)) : Except String (List ℤ) :=
  let kept : List ℚ := vals.filterMap id
  let ints : List ℤ := kept.map truncQ
  if ints.all (fun v => v == 0 || v == 1) then Except.ok ints
  else Except.error domainErr

/-- Value coercion of `resolve_target` on a boolean target column:
`astype(int)`. -/
def coerceTargetBool (vals : List Bool) : List ℤ :=
  vals.map (fun b => if b then 1 else 0)

/-- Refinement comparator following the spec's words for step 3 of the
coercion policy: numeric parsing is attempted on the *original* values
for the entries the lexicon left missing, unparseable entries staying
missing; then rows still missing are dropped, the rest cast to integer
and checked against \x7b0, 1\x7d. -/
def coerceTargetObjSpec (vals : List String) : Except String (List ℤ) :=
  let mapped : List (Option ℤ) := vals.map (fun v => mapping (normCell v))
  let coerced : List (Option ℤ) :=
    if mapped.any (fun o => o.isNone) then
      vals.map (fun v => (mapping (normCell v)).orElse (fun _ => (parseNum v).map truncQ))
    else mapped
  let kept : List ℤ := coerced.filterMap id
  if kept.all (fun v => v == 0 || v == 1) then Except.ok kept
  else Except.error domainErr

example : coerceTargetObj ["Yes", "No", "yes", "N", ""] = Except.ok [1, 0, 1, 0] := by rfl
example : coerceTargetObj ["yes", "2"] = Except.ok [1] := by rfl
example : coerceTargetObjSpec ["yes", "2"] = Except.error domainErr := by rfl

/-! ## Column-name operations -/

/-- Column renaming of `normalize_columns` at column-name level. -/
def normalize_columns (cols : List String) : List String :=
  cols.map to_snake

/-- Error raised by `resolve_target` when no candidate matches; the
dynamic message (an f-string listing candidates and columns) is
abbreviated to a constant text. -/
def targetErr : String :=
  "None of the target candidates found in columns"

/-- Matching and renaming step of `resolve_target` on the list of
column names of an (already normalized) dataset: candidates are
snake-cased, the matching columns collected in dataset column order
(`existing`), and on success the first match is renamed to `DEFAULT`
(`df.rename` renames every column bearing that name). -/
def resolve_target_cols (cols : List String) (cands : List String) : Except String (List String) :=
  let normCandidates := cands.map to_snake
  match cols.filter (fun c => decide (c ∈ normCandidates)) with
  | [] => Except.error targetErr
  | t :: _ => Except.ok (cols.map (fun c => if c = t then "DEFAULT" else c))

/-- Column pruning of `drop_harmless_ids`: the drop list is snake-cased
and the dataset keeps, in order, exactly the columns whose name is not
in it; absent names are silently ignored (no error path exists). -/
def drop_harmless_ids (cols : List String) (drop_list : List String) : List String :=
  let drops := drop_list.map to_snake
  cols.filter (fun c => decide (¬ c ∈ drops))

/-- Final sanity checks of `preprocess` (step 5) over the column names
and the values of the target column: the run aborts with a `KeyError`
unless `DEFAULT` is present, and with a `ValueError` unless
`Series.nunique` (the number of distinct values) is exactly 2.  The
`ok` value carries the dataset that step 6 then persists with
`to_csv`, so an error means nothing is written. -/
def final_sanity (cols : List String) (target : List ℤ) :
    Except String (List String × List ℤ) :=
  if ¬ "DEFAULT" ∈ cols then
    Except.error "Target column DEFAULT not present after preprocessing."
  else if target.dedup.length ≠ 2 then
    Except.error "Target DEFAULT should be binary (0/1)."
  else Except.ok (cols, target)

example : resolve_target_cols ["cust_id", "defaulted"] ["Defaulted?"]
    = Except.ok ["cust_id", "DEFAULT"] := by rfl
example : resolve_target_cols ["cust_id"] ["Defaulted?"] = Except.error targetErr := by rfl
example : drop_harmless_ids ["cust_id", "income"] ["ID", "Cust_ID"] = ["income"] := by rfl

/-! ## Helper lemmas about the value coercions -/

theorem mapping_zero_or_one {s : String} {v : ℤ} (h : mapping s = some v) :
    v = 0 ∨ v = 1 := by
  unfold mapping at h
  split_ifs at h with h1 h2
  · cases h
    right
    rfl
  · cases h
    left
    rfl

/-- On an object target column the coercion of `resolve_target` always
succeeds, returning exactly the lexicon images of the normalized cells
in order; rows whose cell the lexicon does not know are dropped. -/
theorem coerceTargetObj_ok (vals : List String) :
    coerceTargetObj vals = Except.ok (vals.filterMap (fun v => mapping (normCell v))) := by
  have hmap : (vals.map (fun v => mapping (normCell v))).filterMap id
      = vals.filterMap (fun v => mapping (normCell v)) := by
    rw [List.filterMap_map]
    rfl
  have hall : (vals.filterMap (fun v => mapping (normCell v))).all
      (fun v => v == 0 || v == 1) = true := by
    rw [List.all_eq_true]
    intro x hx
    rw [List.mem_filterMap] at hx
    obtain ⟨a, _, ha⟩ := hx
    rcases mapping_zero_or_one ha with rfl | rfl <;> rfl
  simp only [coerceTargetObj]
  rw [hmap, if_pos hall]

theorem parseAll_eq_none {l : List String} {v : String} (hv : v ∈ l)
    (hp : parseNum v = none) : parseAll l = none := by
  induction l with
  | nil => simp at hv
  | cons s ss ih =>
    rcases List.mem_cons.mp hv with rfl | hmem
    · rw [parseAll, hp]
    · rw [parseAll, ih hmem]
      cases parseNum s <;> rfl

/-! ## Claims C1 to C4 and C9: value coercion -/

/-- C1, counterexample: `basic_type_fixes` on the currency column
`["$1,200.50", "$950", "N/A"]` does not parse cells independently.
Because `pd.to_numeric(errors="ignore")` returns its input unchanged
when any cell fails to parse, the whole column stays textual — holding
the comma/dollar-stripped strings — rather than the claimed mixed
column `[1200.50, 950.0, "N/A"]`. -/
theorem C1_counterexample :
    basic_type_fixes_col "bank_balance" ["$1,200.50", "$950", "N/A"]
        = [PyVal.str "1200.50", PyVal.str "950", PyVal.str "N/A"] ∧
      [PyVal.str "1200.50", PyVal.str "950", PyVal.str "N/A"]
        ≠ [PyVal.num (Rat.divInt 2401 2), PyVal.num 950, PyVal.str "N/A"] :=
  ⟨rfl, by decide⟩

/-- C1 (corrected): for a configured currency column holding textual
data, commas and currency symbols are stripped and numeric parsing is
attempted on the column as a whole; when any cell fails to parse, no
cell becomes a number — every cell keeps its stripped textual value —
and no error is raised. -/
theorem C1_no_partial_conversion (name : String) (vals : List String) (v : String)
    (hname : name ∈ finance_cols) (hv : v ∈ vals)
    (hp : parseNum (stripCurrency v) = none) :
    basic_type_fixes_col name vals = (vals.map stripCurrency).map PyVal.str := by
  have hnone : parseAll (vals.map stripCurrency) = none :=
    parseAll_eq_none (List.mem_map_of_mem _ hv) hp
  simp only [basic_type_fixes_col, if_pos hname, hnone]

/-- C1, witness: the hypotheses of `C1_no_partial_conversion` hold at
the spec's own example and give the stripped-text column. -/
theorem C1_witness :
    "bank_balance" ∈ finance_cols ∧ "N/A" ∈ ["$1,200.50", "$950", "N/A"] ∧
      parseNum (stripCurrency "N/A") = none ∧
      basic_type_fixes_col "bank_balance" ["$1,200.50", "$950", "N/A"]
        = (["$1,200.50", "$950", "N/A"].map stripCurrency).map PyVal.str :=
  ⟨by decide, by decide, rfl,
    C1_no_partial_conversion "bank_balance" _ "N/A" (by decide) (by decide) rfl⟩

/-- C2 (confirmed): on the target column `["Yes","No","yes","N",""]`
the value coercion of `resolve_target` drops exactly the row holding
`""` (the only cell the lexicon does not know) and maps the remaining
rows, in order, to `[1, 0, 1, 0]`. -/
theorem C2_target_string_example :
    coerceTargetObj ["Yes", "No", "yes", "N", ""] = Except.ok [1, 0, 1, 0] := by
  rfl

/-- C3, counterexample: on the target column `["yes", "2"]` the code
drops the `"2"` row (the generic numeric parse runs on the
already-mapped column, where `"2"` has become missing), returning
`[1]`; under the spec's wording — parse the original values, so `"2"`
is recovered as the number 2 — the 2 would survive to the domain check
and raise the out-of-domain error instead. -/
theorem C3_counterexample :
    coerceTargetObj ["yes", "2"] = Except.ok [1] ∧
      coerceTargetObjSpec ["yes", "2"] = Except.error domainErr :=
  ⟨rfl, rfl⟩

/-- C3 (corrected): the generic numeric parsing step operates on the
target column as already overwritten by the lexicon mapping — where it
is numerically the identity — not on the original values; so a textual
value absent from the lexicon, such as `"2"`, stays missing and its
row is dropped, and the resolver returns exactly the lexicon images of
the cells in order. -/
theorem C3_parse_runs_on_mapped_values (vals : List String) :
    coerceTargetObj vals = Except.ok (vals.filterMap (fun v => mapping (normCell v))) ∧
      coerceTargetObj ["yes", "2"] = Except.ok [1] :=
  ⟨coerceTargetObj_ok vals, rfl⟩

/-- C4, counterexample: the "value out of domain" branch of
`resolve_target` is reachable.  The numeric target column `[0, 1, 2]`
passes every coercion step unchanged — no mapping applies, nothing is
missing, so no row is dropped and the integer cast is the identity —
yet the post-condition check fires. -/
theorem C4_counterexample :
    coerceTargetNum [some 0, some 1, some 2] = Except.error domainErr := by
  rfl

/-- C4 (corrected): the out-of-domain error is unreachable on an
object (textual) target column — that path always succeeds — but on a
numeric target column it is raised exactly when some surviving value
truncates outside \x7b0, 1\x7d. -/
theorem C4_domain_error_reachability :
    (∀ vals : List String, ∃ out, coerceTargetObj vals = Except.ok out) ∧
      (∀ vals : List (Option ℚ),
        coerceTargetNum vals = Except.error domainErr ↔
          ∃ q ∈ vals.filterMap id, truncQ q ≠ 0 ∧ truncQ q ≠ 1) := by
  constructor
  · intro vals
    exact ⟨_, coerceTargetObj_ok vals⟩
  · intro vals
    by_cases hall : ((vals.filterMap id).map truncQ).all (fun v => v == 0 || v == 1) = true
    · simp only [coerceTargetNum, if_pos hall]
      constructor
      · intro h
        exact absurd h (by simp)
      · rintro ⟨q, hq, h0, h1⟩
        have hm := List.all_eq_true.mp hall (truncQ q) (List.mem_map_of_mem _ hq)
        simp only [Bool.or_eq_true, beq_iff_eq] at hm
        rcases hm with h | h
        · exact absurd h h0
        · exact absurd h h1
    · simp only [coerceTargetNum, if_neg hall]
      constructor
      · intro _
        have hf := List.all_eq_false.mp (Bool.eq_false_iff.mpr hall)
        obtain ⟨x, hx, hxp⟩ := hf
        obtain ⟨q, hq, rfl⟩ := List.mem_map.mp hx
        simp only [Bool.or_eq_true, beq_iff_eq, not_or] at hxp
        exact ⟨q, hq, hxp.1, hxp.2⟩
      · intro _
        trivial

/-- C9 (confirmed): on a numeric target column with no missing values,
`resolve_target` drops no row and casts every value to integer by
truncation toward zero; when every truncation lands in \x7b0, 1\x7d the
domain check passes silently. -/
theorem C9_numeric_truncation (vals : List ℚ)
    (h : ∀ q ∈ vals, truncQ q = 0 ∨ truncQ q = 1) :
    coerceTargetNum (vals.map some) = Except.ok (vals.map truncQ) := by
  have hfm : (vals.map some).filterMap id = vals := by
    rw [List.filterMap_map]
    exact List.filterMap_some vals
  have hall : (vals.map truncQ).all (fun v => v == 0 || v == 1) = true := by
    rw [List.all_eq_true]
    intro x hx
    obtain ⟨q, hq, rfl⟩ := List.mem_map.mp hx
    rcases h q hq with h0 | h0 <;> rw [h0] <;> rfl
  simp only [coerceTargetNum, hfm, if_pos hall]

/-- C9, witness: the fractional values 0.5 and 1.9 truncate to 0 and 1,
pass the domain check, and no row is dropped. -/
theorem C9_witness :
    (∀ q ∈ [Rat.divInt 1 2, Rat.divInt 19 10], truncQ q = 0 ∨ truncQ q = 1) ∧
      coerceTargetNum ([Rat.divInt 1 2, Rat.divInt 19 10].map some) = Except.ok [0, 1] := by
  refine ⟨by decide, ?_⟩
  rw [C9_numeric_truncation [Rat.divInt 1 2, Rat.divInt 19 10] (by decide)]
  rfl

/-! ## Claims C5 to C8 and C10: column names -/

theorem filter_head_firstMatch (p : String → Bool) {cols : List String} {i : ℕ}
    (hi : i < cols.length) (hp : p (cols.get ⟨i, hi⟩) = true)
    (hbefore : ∀ j (hj : j < i), p (cols.get ⟨j, Nat.lt_trans hj hi⟩) = false) :
    (cols.filter p).head? = some (cols.get ⟨i, hi⟩) := by
  induction cols generalizing i with
  | nil => simp at hi
  | cons a as ih =>
    cases i with
    | zero =>
      have hpa : p a = true := hp
      rw [List.filter_cons, if_pos hpa]
      rfl
    | succ n =>
      have ha : p a = false := hbefore 0 (Nat.succ_pos n)
      rw [List.filter_cons, ha]
      simp only [Bool.false_eq_true, if_false]
      exact ih (Nat.lt_of_succ_lt_succ hi) hp
        (fun j hjn => hbefore (j + 1) (Nat.succ_lt_succ hjn))

theorem map_rename_first {cols : List String} {i : ℕ}
    (hnd : cols.Nodup) (hi : i < cols.length) :
    cols.map (fun c => if c = cols.get ⟨i, hi⟩ then "DEFAULT" else c)
      = cols.set i "DEFAULT" := by
  induction cols generalizing i with
  | nil => simp at hi
  | cons a as ih =>
    obtain ⟨hna, hnd'⟩ := List.nodup_cons.mp hnd
    cases i with
    | zero =>
      have hgz : (a :: as).get ⟨0, hi⟩ = a := rfl
      rw [hgz, List.map_cons, if_pos rfl, List.set_cons_zero]
      congr 1
      refine map_id_of (fun x hx => if_neg ?_)
      intro hxa
      apply hna
      rw [← hxa]
      exact hx
    | succ n =>
      have hn : n < as.length := Nat.lt_of_succ_lt_succ hi
      have hga : (a :: as).get ⟨n + 1, hi⟩ = as.get ⟨n, hn⟩ := rfl
      have hane : ¬ a = (a :: as).get ⟨n + 1, hi⟩ := by
        rw [hga]
        intro ha
        apply hna
        rw [ha]
        exact List.get_mem as n hn
      rw [List.map_cons, List.set_cons_succ, if_neg hane]
      congr 1
      rw [hga]
      exact ih hnd' hn

/-- C5 (confirmed): over a normalized dataset with distinct column
names, the matching step of `resolve_target` raises the missing-target
error exactly when no column's canonical name appears among the
canonicalized candidates, and otherwise renames the first matching
column in dataset column order — not candidate order — to `DEFAULT`,
leaving the other columns unchanged. -/
theorem C5_resolve_target_matching (cols cands : List String)
    (hnorm : ∀ c ∈ cols, to_snake c = c) (hnd : cols.Nodup) :
    (resolve_target_cols cols cands = Except.error targetErr ↔
      ∀ c ∈ cols, ¬ to_snake c ∈ cands.map to_snake) ∧
    (∀ i (hi : i < cols.length),
      to_snake (cols.get ⟨i, hi⟩) ∈ cands.map to_snake →
      (∀ j (hj : j < i), ¬ to_snake (cols.get ⟨j, Nat.lt_trans hj hi⟩) ∈ cands.map to_snake) →
      resolve_target_cols cols cands = Except.ok (cols.set i "DEFAULT")) := by
  constructor
  · constructor
    · intro he c hc
      rw [hnorm c hc]
      intro hmem
      have hfc : c ∈ cols.filter (fun c => decide (c ∈ cands.map to_snake)) :=
        List.mem_filter.mpr ⟨hc, decide_eq_true hmem⟩
      rcases hfl : cols.filter (fun c => decide (c ∈ cands.map to_snake)) with _ | ⟨t, ts⟩
      · rw [hfl] at hfc
        simp at hfc
      · simp only [resolve_target_cols, hfl] at he
        cases he
    · intro hnone
      have hfl : cols.filter (fun c => decide (c ∈ cands.map to_snake)) = [] := by
        rw [List.filter_eq_nil_iff]
        intro c hc
        have := hnone c hc
        rw [hnorm c hc] at this
        simpa using this
      simp only [resolve_target_cols, hfl]
  · intro i hi hmatch hbefore
    have hp : (fun c => decide (c ∈ cands.map to_snake)) (cols.get ⟨i, hi⟩) = true := by
      rw [hnorm _ (List.get_mem cols i hi)] at hmatch
      exact decide_eq_true hmatch
    have hb : ∀ j (hj : j < i),
        (fun c => decide (c ∈ cands.map to_snake)) (cols.get ⟨j, Nat.lt_trans hj hi⟩) = false := by
      intro j hj
      have := hbefore j hj
      rw [hnorm _ (List.get_mem cols j (Nat.lt_trans hj hi))] at this
      simpa using this
    have hhead := filter_head_firstMatch (fun c => decide (c ∈ cands.map to_snake)) hi hp hb
    rcases hfl : cols.filter (fun c => decide (c ∈ cands.map to_snake)) with _ | ⟨t, ts⟩
    · rw [hfl] at hhead
      simp at hhead
    · rw [hfl] at hhead
      have ht : t = cols.get ⟨i, hi⟩ := by
        cases hhead
        rfl
      simp only [resolve_target_cols, hfl, ht]
      rw [map_rename_first hnd hi]

/-- C5, witness: `status` appears before `Defaulted?` in the candidate
list, yet the column renamed is `defaulted`, the first match in dataset
column order; with no match the resolver errors. -/
theorem C5_witness :
    resolve_target_cols ["cust_id", "defaulted", "status"] ["Status", "Defaulted?"]
      = Except.ok (["cust_id", "defaulted", "status"].set 1 "DEFAULT") :=
  (C5_resolve_target_matching ["cust_id", "defaulted", "status"] ["Status", "Defaulted?"]
    (by decide) (by decide)).2 1 (by decide) (by decide) (by decide)

/-- C6 (confirmed): the final validation of `preprocess` lets a dataset
through to persistence exactly when the `DEFAULT` column is present and
its values take exactly two distinct values; any other dataset —
in particular one whose target is constant — aborts with an error
before anything is written. -/
theorem C6_final_validation (cols : List String) (target : List ℤ) :
    (∃ out, final_sanity cols target = Except.ok out) ↔
      ("DEFAULT" ∈ cols ∧ target.dedup.length = 2) := by
  by_cases h1 : "DEFAULT" ∈ cols
  · by_cases h2 : target.dedup.length = 2
    · rw [final_sanity, if_neg (not_not_intro h1), if_neg (not_ne_iff.mpr h2)]
      constructor
      · intro _
        exact ⟨h1, h2⟩
      · intro _
        exact ⟨_, rfl⟩
    · rw [final_sanity, if_neg (not_not_intro h1), if_pos h2]
      constructor
      · rintro ⟨out, hout⟩
        cases hout
      · rintro ⟨_, hl⟩
        exact absurd hl h2
  · rw [final_sanity, if_pos h1]
    constructor
    · rintro ⟨out, hout⟩
      cases hout
    · rintro ⟨hm, _⟩
      exact absurd hm h1

/-- C6, witness: a resolved target holding a single distinct value
(all zeros) fails the final validation, so nothing is persisted. -/
theorem C6_witness :
    ¬ ∃ out, final_sanity ["income", "DEFAULT"] [0, 0, 0] = Except.ok out := by
  intro h
  have hc := (C6_final_validation ["income", "DEFAULT"] [0, 0, 0]).mp h
  revert hc
  decide

/-- C7 (confirmed): `drop_harmless_ids` keeps exactly the columns whose
name is not in the snake-cased drop list, preserves the relative order
of the survivors (the result is a sublist of the input), raises no
error for absent names (it is a total function), and on the spec's
example removes only `cust_id`. -/
theorem C7_drop_harmless_ids_spec (cols drop_list : List String) :
    (∀ c, c ∈ drop_harmless_ids cols drop_list ↔
      (c ∈ cols ∧ ¬ c ∈ drop_list.map to_snake)) ∧
    List.Sublist (drop_harmless_ids cols drop_list) cols ∧
    drop_harmless_ids ["cust_id", "income", "age"] ["ID", "Cust_ID"] = ["income", "age"] := by
  refine ⟨?_, List.filter_sublist _, by decide⟩
  intro c
  simp [drop_harmless_ids, List.mem_filter]

/-- C8 (confirmed): column-name canonicalization `_to_snake` is
idempotent — canonicalizing twice equals canonicalizing once. -/
theorem C8_to_snake_idempotent (s : String) : to_snake (to_snake s) = to_snake s :=
  congrArg String.mk (toSnake_idem s.data)

/-- C10 (confirmed): snake-cased drop-list names are lowercase, so they
can never equal the uppercase label `DEFAULT`; whatever the drop list —
even one containing `default` or `DEFAULT` — the pruner keeps the
`DEFAULT` column. -/
theorem C10_DEFAULT_survives_pruning (cols drop_list : List String)
    (h : "DEFAULT" ∈ cols) :
    "DEFAULT" ∈ drop_harmless_ids cols drop_list := by
  simp only [drop_harmless_ids]
  rw [List.mem_filter]
  refine ⟨h, decide_eq_true ?_⟩
  intro hmem
  obtain ⟨s, _, hs⟩ := List.mem_map.mp hmem
  exact to_snake_ne_DEFAULT s hs

/-- C10, witness: dropping `["default", "DEFAULT", "ID"]` leaves the
`DEFAULT` column in place. -/
theorem C10_witness :
    "DEFAULT" ∈ ["DEFAULT", "cust_id"] ∧
      "DEFAULT" ∈ drop_harmless_ids ["DEFAULT", "cust_id"] ["default", "DEFAULT", "ID"] :=
  ⟨by decide, C10_DEFAULT_survives_pruning ["DEFAULT", "cust_id"]
    ["default", "DEFAULT", "ID"] (by decide)⟩

end LoanDefault
